import Mathlib

/-!
A shallow embedding of the schema-salad reference resolver
(cwltool/schemas/v1.0/salad/schema_salad/ref_resolver.py) in Lean 4.

Documents are modelled by the tagged sum `Node` (null, bool, int, string,
sequence, mapping).  Mappings are association lists in insertion order,
matching the Python dict semantics used by the source (update in place for
an existing key, append for a new key).  URL manipulation mirrors the parts
of CPython urllib.parse that the source calls (urlsplit, urlunsplit,
urljoin, urldefrag), implemented over lists of characters so that every
definition evaluates inside the kernel.  The object aliasing of the Python
runtime is not modelled: the Index stores node snapshots, which coincides
with the mutable behaviour on the executions examined here.
-/

/-- JSON/YAML document node: the data model of the resolver. -/
inductive Node where
  | null
  | bool (b : Bool)
  | num (n : Int)
  | str (s : String)
  | arr (xs : List Node)
  | map (kvs : List (String × Node))

/-- Structural equality test on nodes (Python == on parsed documents). -/
def Node.beq : Node → Node → Bool
  | .null, .null => true
  | .bool a, .bool b => a == b
  | .num a, .num b => a == b
  | .str a, .str b => a == b
  | .arr xs, .arr ys => goL xs ys
  | .map xs, .map ys => goM xs ys
  | _, _ => false
where
  goL : List Node → List Node → Bool
    | [], [] => true
    | x :: xs, y :: ys => x.beq y && goL xs ys
    | _, _ => false
  goM : List (String × Node) → List (String × Node) → Bool
    | [], [] => true
    | (k, v) :: xs, (k2, v2) :: ys => k == k2 && v.beq v2 && goM xs ys
    | _, _ => false

def Node.beq_iff : ∀ (a b : Node), (Node.beq a b = true ↔ a = b)
  | .null, .null => by simp [Node.beq]
  | .null, .bool _ | .null, .num _ | .null, .str _ | .null, .arr _ | .null, .map _ => by
    simp [Node.beq]
  | .bool _, .null | .bool _, .num _ | .bool _, .str _ | .bool _, .arr _ | .bool _, .map _ => by
    simp [Node.beq]
  | .num _, .null | .num _, .bool _ | .num _, .str _ | .num _, .arr _ | .num _, .map _ => by
    simp [Node.beq]
  | .str _, .null | .str _, .bool _ | .str _, .num _ | .str _, .arr _ | .str _, .map _ => by
    simp [Node.beq]
  | .arr _, .null | .arr _, .bool _ | .arr _, .num _ | .arr _, .str _ | .arr _, .map _ => by
    simp [Node.beq]
  | .map _, .null | .map _, .bool _ | .map _, .num _ | .map _, .str _ | .map _, .arr _ => by
    simp [Node.beq]
  | .bool a, .bool b => by simp [Node.beq]
  | .num a, .num b => by simp [Node.beq]
  | .str a, .str b => by simp [Node.beq]
  | .arr xs, .arr ys => by
    simpa [Node.beq] using goL_iff xs ys
  | .map xs, .map ys => by
    simpa [Node.beq] using goM_iff xs ys
where
  goL_iff : ∀ (xs ys : List Node), (Node.beq.goL xs ys = true ↔ xs = ys)
    | [], [] => by simp [Node.beq.goL]
    | [], _ :: _ => by simp [Node.beq.goL]
    | _ :: _, [] => by simp [Node.beq.goL]
    | x :: xs, y :: ys => by
      simp [Node.beq.goL, Node.beq_iff x y, goL_iff xs ys]
  goM_iff : ∀ (xs ys : List (String × Node)), (Node.beq.goM xs ys = true ↔ xs = ys)
    | [], [] => by simp [Node.beq.goM]
    | [], _ :: _ => by simp [Node.beq.goM]
    | _ :: _, [] => by simp [Node.beq.goM]
    | (k, v) :: xs, (k2, v2) :: ys => by
      simp [Node.beq.goM, Node.beq_iff v v2, goM_iff xs ys, Prod.ext_iff, and_assoc]

instance : DecidableEq Node := fun a b =>
  decidable_of_iff (Node.beq a b = true) (Node.beq_iff a b)

/-- Python truthiness of a node (`if not ref`, `doc if doc else obj`). -/
def Node.falsy : Node → Bool
  | .null => true
  | .bool b => !b
  | .num n => n == 0
  | .str s => s == ""
  | .arr xs => xs.isEmpty
  | .map kvs => kvs.isEmpty

/-! ### Association-list dictionaries (Python dict semantics) -/

/-- First value bound to key `k` (dict lookup). -/
def dGet (kvs : List (String × Node)) (k : String) : Option Node :=
  match kvs with
  | [] => none
  | (k2, v) :: rest => if k2 = k then some v else dGet rest k

/-- Key membership (`k in d`). -/
def dHas (kvs : List (String × Node)) (k : String) : Bool :=
  (dGet kvs k).isSome

/-- `d[k] = v`: update in place when the key exists, append otherwise. -/
def dSet (kvs : List (String × Node)) (k : String) (v : Node) : List (String × Node) :=
  match kvs with
  | [] => [(k, v)]
  | (k2, v2) :: rest => if k2 = k then (k2, v) :: rest else (k2, v2) :: dSet rest k v

/-- `del d[k]` (keys are unique in documents parsed from YAML). -/
def dDel (kvs : List (String × Node)) (k : String) : List (String × Node) :=
  kvs.filter (fun kv => kv.1 ≠ k)

/-- `_copy_dict_without_key`: shallow copy of the mapping without one key. -/
def copyWithoutKey (kvs : List (String × Node)) (k : String) : List (String × Node) :=
  kvs.filter (fun kv => kv.1 ≠ k)

/-- String-valued dictionary lookup (vocab / rvocab / cache tables). -/
def sGet (kvs : List (String × String)) (k : String) : Option String :=
  match kvs with
  | [] => none
  | (k2, v) :: rest => if k2 = k then some v else sGet rest k

def sHas (kvs : List (String × String)) (k : String) : Bool :=
  (sGet kvs k).isSome

def sSet (kvs : List (String × String)) (k : String) (v : String) : List (String × String) :=
  match kvs with
  | [] => [(k, v)]
  | (k2, v2) :: rest => if k2 = k then (k2, v) :: rest else (k2, v2) :: sSet rest k v

/-- Add to an insertion-ordered set (Python set.add, first insertion wins). -/
def setAdd (xs : List String) (x : String) : List String :=
  if xs.contains x then xs else xs ++ [x]

/-! ### Character-list string helpers

The source manipulates Python strings; every operation used is rebuilt here
over `List Char` so that concrete executions reduce in the kernel. -/

/-- Split at every occurrence of `c` (Python str.split, so that an empty
string yields one empty component). -/
def splitOnC (c : Char) : List Char → List (List Char)
  | [] => [[]]
  | x :: xs =>
    let r := splitOnC c xs
    if x = c then [] :: r
    else
      match r with
      | [] => [[x]]
      | h :: t => (x :: h) :: t

/-- Split at the first occurrence of `c`: `some (before, after)` when present. -/
def splitFirstC (c : Char) : List Char → Option (List Char × List Char)
  | [] => none
  | x :: xs =>
    if x = c then some ([], xs)
    else
      match splitFirstC c xs with
      | none => none
      | some (pre, post) => some (x :: pre, post)

/-- `String.intercalate "/"` over components. -/
def joinSlash : List (List Char) → List Char
  | [] => []
  | [x] => x
  | x :: xs => x ++ '/' :: joinSlash xs

def listStartsWith (pat : List Char) (cs : List Char) : Bool :=
  match pat, cs with
  | [], _ => true
  | _ :: _, [] => false
  | p :: ps, c :: rest => p = c && listStartsWith ps rest

/-- Take until one of the delimiter characters (CPython _splitnetloc). -/
def takeUntilDelims (delims : List Char) : List Char → List Char × List Char
  | [] => ([], [])
  | c :: cs =>
    if delims.contains c then ([], c :: cs)
    else
      let (pre, post) := takeUntilDelims delims cs
      (c :: pre, post)

/-! ### urllib.parse subset

Faithful to CPython 3.11 urlsplit / urlunsplit / urljoin / urldefrag on the
inputs the resolver produces (no percent-decoding, no IPv6 validation, no
semicolon path parameters, no whitespace stripping). -/

structure USplit where
  scheme : String
  netloc : String
  path : String
  query : String
  fragment : String
deriving DecidableEq

def isSchemeChar (c : Char) : Bool :=
  c.isAlpha || c.isDigit || c = '+' || c = '-' || c = '.'

/-- CPython urlsplit. -/
def splitURL (url : String) : USplit :=
  let cs := url.data
  let (schemeCs, rest) :=
    match splitFirstC ':' cs with
    | some (pre, post) =>
      match pre with
      | [] => (([] : List Char), cs)
      | c0 :: _ =>
        if c0.isAlpha && pre.all isSchemeChar then (pre.map Char.toLower, post)
        else ([], cs)
    | none => ([], cs)
  let (netlocCs, rest2) :=
    if listStartsWith ['/', '/'] rest then
      takeUntilDelims ['/', '?', '#'] (rest.drop 2)
    else ([], rest)
  let (rest3, fragCs) :=
    match splitFirstC '#' rest2 with
    | some (pre, post) => (pre, post)
    | none => (rest2, [])
  let (pathCs, queryCs) :=
    match splitFirstC '?' rest3 with
    | some (pre, post) => (pre, post)
    | none => (rest3, [])
  ⟨String.mk schemeCs, String.mk netlocCs, String.mk pathCs,
   String.mk queryCs, String.mk fragCs⟩

/-- Schemes that use a network location (CPython uses_netloc). -/
def usesNetloc : List String :=
  ["", "ftp", "http", "gopher", "nntp", "telnet", "imap", "wais", "file",
   "mms", "https", "shttp", "snews", "prospero", "rtsp", "rtsps", "rtspu",
   "rsync", "svn", "svn+ssh", "sftp", "nfs", "git", "git+ssh", "ws", "wss"]

/-- Schemes that allow relative joining (CPython uses_relative). -/
def usesRelative : List String :=
  ["", "ftp", "http", "gopher", "nntp", "imap", "wais", "file", "https",
   "shttp", "mms", "prospero", "rtsp", "rtsps", "rtspu", "sftp", "svn",
   "svn+ssh", "ws", "wss"]

/-- CPython urlunsplit. -/
def unsplitURL (u : USplit) : String :=
  let path := u.path.data
  let path :=
    if u.netloc ≠ "" || (u.scheme ≠ "" && usesNetloc.contains u.scheme
        && !listStartsWith ['/', '/'] path) then
      let path := if path ≠ [] && !listStartsWith ['/'] path then '/' :: path else path
      '/' :: '/' :: u.netloc.data ++ path
    else path
  let path := if u.scheme ≠ "" then u.scheme.data ++ ':' :: path else path
  let path := if u.query ≠ "" then path ++ '?' :: u.query.data else path
  let path := if u.fragment ≠ "" then path ++ '#' :: u.fragment.data else path
  String.mk path

/-- Key normalisation applied by the NormDict index:
parse and reassemble (urlsplit(url).geturl()). -/
def nrm (url : String) : String :=
  unsplitURL (splitURL url)

/-- CPython urldefrag: the URL without its fragment, and the fragment. -/
def urldefrag (url : String) : String × String :=
  match splitFirstC '#' url.data with
  | some (_, post) =>
    let s := splitURL url
    (unsplitURL ⟨s.scheme, s.netloc, s.path, s.query, ""⟩, String.mk post)
  | none => (url, "")

/-- CPython urljoin (without semicolon path parameters). -/
def urljoinF (base url : String) : String :=
  if base = "" then url
  else if url = "" then base
  else
    let b := splitURL base
    let u := splitURL url
    let scheme := if u.scheme = "" then b.scheme else u.scheme
    if scheme ≠ b.scheme || !usesRelative.contains scheme then url
    else
      let netloc :=
        if usesNetloc.contains scheme then
          if u.netloc ≠ "" then u.netloc else b.netloc
        else u.netloc
      if usesNetloc.contains scheme && u.netloc ≠ "" then
        unsplitURL ⟨scheme, u.netloc, u.path, u.query, u.fragment⟩
      else if u.path = "" then
        let query := if u.query = "" then b.query else u.query
        unsplitURL ⟨scheme, netloc, b.path, query, u.fragment⟩
      else
        let pathSegs := splitOnC '/' u.path.data
        let segments :=
          if listStartsWith ['/'] u.path.data then pathSegs
          else
            let baseParts := splitOnC '/' b.path.data
            let baseParts :=
              if baseParts.getLast? ≠ some [] then baseParts.dropLast else baseParts
            let merged := baseParts ++ pathSegs
            match merged with
            | [] => []
            | h :: t =>
              match t.reverse with
              | [] => [h]
              | last :: midRev => h :: ((midRev.reverse.filter (· ≠ [])) ++ [last])
        let resolved := segments.foldl
          (fun acc seg =>
            if seg = ['.', '.'] then acc.dropLast
            else if seg = ['.'] then acc
            else acc ++ [seg])
          []
        let resolved :=
          if segments.getLast? = some ['.'] || segments.getLast? = some ['.', '.'] then
            resolved ++ [[]]
          else resolved
        let joined := joinSlash resolved
        let joined := if joined = [] then ['/'] else joined
        unsplitURL ⟨scheme, netloc, String.mk joined, u.query, u.fragment⟩

/-! ### Errors

The taxonomy of exceptions raised by the source: ValueError,
validate.ValidationException and RuntimeError. -/

inductive Err where
  | valueErr (msg : String)
  | validationErr (msg : String)
  | runtimeErr (msg : String)
deriving DecidableEq

deriving instance DecidableEq for Except

/-- Truthiness of an optional lookup (Python value.get(k) in a condition). -/
def optTruthy (o : Option Node) : Bool :=
  match o with
  | some v => !v.falsy
  | none => false

/-! ### The Loader: compiled context -/

/-- The compiled-context fields of the Loader object.  The shared mutable
state (index and text cache) lives in `LState`; the RDF graph and the
foreign-property set belong to the out-of-scope schema collaborator. -/
structure Loader where
  ctx : List (String × Node)
  urlFields : List String
  scopedRefFields : List (String × Node)
  vocabFields : List String
  identifiers : List String
  identityLinks : List String
  nolinkcheck : List String
  vocab : List (String × String)
  rvocab : List (String × String)
  idmap : List (String × String)
  mapPredicate : List (String × String)
  typeDslFields : List String
deriving DecidableEq

/-- The shared mutable state owned by a loader: the normalizing Index and
the raw-text cache. -/
structure LState where
  idx : List (String × Node)
  cache : List (String × String)
deriving DecidableEq

/-- Index membership: keys are compared after URL normalisation. -/
def idxHas (s : LState) (url : String) : Bool :=
  s.idx.any (fun kv => kv.1 = nrm url)

def idxGet (s : LState) (url : String) : Option Node :=
  match s.idx.find? (fun kv => kv.1 = nrm url) with
  | some kv => some kv.2
  | none => none

def idxSet (s : LState) (url : String) (v : Node) : LState :=
  { s with idx :=
      match s.idx with
      | kvs => go kvs (nrm url) v }
where
  go : List (String × Node) → String → Node → List (String × Node)
    | [], k, v => [(k, v)]
    | (k2, v2) :: rest, k, v =>
      if k2 = k then (k2, v) :: rest else (k2, v2) :: go rest k v

/-- Everything before the first colon (url.split(":")[0] of the source). -/
def colonPfx (s : String) : String :=
  String.mk (s.data.takeWhile (fun c => c ≠ ':'))

/-- Loader.expand_url.  `scoped_ref` carries the raw refScope node because
the source only tests it against None. -/
def expand_url (L : Loader) (url base_url : String)
    (scoped_id : Bool := false) (vocab_term : Bool := false)
    (scoped_ref : Option Node := none) : String :=
  if url = "@id" || url = "@type" then url
  else if vocab_term && sHas L.vocab url then url
  else
    let url :=
      if L.vocab ≠ [] && url.data.contains ':' then
        let pfx := colonPfx url
        match sGet L.vocab pfx with
        | some v => v ++ String.mk (url.data.drop (pfx.data.length + 1))
        | none => url
      else url
    let split := splitURL url
    let url :=
      if split.scheme ≠ "" || listStartsWith ['$', '('] url.data
          || listStartsWith ['$', '\x7b'] url.data then url
      else if scoped_id && split.fragment = "" then
        let splitbase := splitURL base_url
        let frg :=
          if splitbase.fragment ≠ "" then splitbase.fragment ++ "/" ++ split.path
          else split.path
        let pt := if splitbase.path ≠ "" then splitbase.path else "/"
        unsplitURL ⟨splitbase.scheme, splitbase.netloc, pt, splitbase.query, frg⟩
      else if scoped_ref.isSome && split.fragment = "" then url
      else urljoinF base_url url
    if vocab_term then
      match sGet L.rvocab url with
      | some t => t
      | none => url
    else url

/-- Build the compiled context from the raw context mapping: the loop body
of Loader.add_context.  Non-string vocabulary targets and map subjects are
not representable here (the source would store them and crash on use). -/
def compileCtx (ctx2 : List (String × Node)) : Loader :=
  let L := ctx2.foldl
    (fun (L : Loader) (kv : String × Node) =>
      let (key, value) := kv
      let L :=
        if value = .str "@id" then
          { L with identifiers := setAdd L.identifiers key,
                   identityLinks := setAdd L.identityLinks key }
        else
          match value with
          | .map m =>
            if dGet m "@type" = some (.str "@id") then
              let L := { L with urlFields := setAdd L.urlFields key }
              let L :=
                match dGet m "refScope" with
                | some r => { L with scopedRefFields := dSet L.scopedRefFields key r }
                | none => L
              if optTruthy (dGet m "identity") then
                { L with identityLinks := setAdd L.identityLinks key }
              else L
            else if dGet m "@type" = some (.str "@vocab") then
              let L := { L with urlFields := setAdd L.urlFields key,
                                vocabFields := setAdd L.vocabFields key }
              let L :=
                match dGet m "refScope" with
                | some r => { L with scopedRefFields := dSet L.scopedRefFields key r }
                | none => L
              if optTruthy (dGet m "typeDSL") then
                { L with typeDslFields := setAdd L.typeDslFields key }
              else L
            else L
          | _ => L
      let L :=
        match value with
        | .map m =>
          let L :=
            if optTruthy (dGet m "noLinkCheck") then
              { L with nolinkcheck := setAdd L.nolinkcheck key }
            else L
          let L :=
            match dGet m "mapSubject" with
            | some (.str subj) =>
              if subj ≠ "" then { L with idmap := sSet L.idmap key subj } else L
            | _ => L
          let L :=
            match dGet m "mapPredicate" with
            | some (.str p) =>
              if p ≠ "" then { L with mapPredicate := sSet L.mapPredicate key p } else L
            | _ => L
          match dGet m "@id" with
          | some (.str v) => { L with vocab := sSet L.vocab key v }
          | _ => L
        | .str v => { L with vocab := sSet L.vocab key v }
        | _ => L
      L)
    ({ ctx := ctx2, urlFields := [], scopedRefFields := [], vocabFields := [],
       identifiers := [], identityLinks := [], nolinkcheck := [], vocab := [],
       rvocab := [], idmap := [], mapPredicate := [], typeDslFields := [] } : Loader)
  let rv := L.vocab.foldl
    (fun (rv : List (String × String)) (kv : String × String) =>
      sSet rv (expand_url L kv.2 "" false false none) kv.1) []
  { L with rvocab := rv }

/-- Loader.add_context: fails when the vocabulary is already populated,
otherwise merges the new context (sans @context) and recompiles. -/
def add_context (L : Loader) (newcontext : List (String × Node)) : Except Err Loader :=
  if L.vocab ≠ [] then
    .error (.validationErr "Refreshing context that already has stuff in it")
  else
    .ok (compileCtx ((copyWithoutKey newcontext "@context").foldl
      (fun acc kv => dSet acc kv.1 kv.2) L.ctx))

/-- A loader as built by Loader.__init__ from a raw context. -/
def mkLoader (ctxm : List (String × Node)) : Except Err Loader :=
  add_context
    { ctx := [], urlFields := [], scopedRefFields := [], vocabFields := [],
      identifiers := [], identityLinks := [], nolinkcheck := [], vocab := [],
      rvocab := [], idmap := [], mapPredicate := [], typeDslFields := [] }
    ctxm

/-- SubLoader: a child loader sharing index and cache but recompiling its
own context from the parent raw context. -/
def subLoader (L : Loader) : Loader :=
  compileCtx L.ctx

/-- Loader.add_namespaces: vocab.update(ns).  Only string-valued namespace
tables occur (anything else would crash the source downstream). -/
def add_namespaces (L : Loader) (ns : Node) : Except Err Loader :=
  match ns with
  | .map m =>
    m.foldlM
      (fun (L : Loader) (kv : String × Node) =>
        match kv.2 with
        | .str v => Except.ok { L with vocab := sSet L.vocab kv.1 v }
        | _ => Except.error (.runtimeErr "namespace value must be a string"))
      L
  | _ => .error (.runtimeErr "namespaces must be a mapping")

/-! ### External environment

The transport, YAML parser and filesystem collaborators, modelled as pure
oracles.  `text` answers HTTP GET by URL, `fileRead` answers a file read by
path, `parse` is the YAML safe loader applied to raw text, `fileExists` is
os.path.exists, and `cwd` is the default base URL built from the working
directory.  RDF schema ingestion (add_schemas) is out of scope: the
environment has no RDF transport, and when every parse attempt fails the
source leaves the graph untouched and registers nothing. -/

structure Env where
  text : String → Option String
  fileRead : String → Option String
  parse : String → Option Node
  fileExists : String → Bool
  cwd : String

/-- Loader.fetch_text: cached text, or a transport read dispatched on the
URL scheme.  The cache is consulted with the raw URL (a plain dict, not the
normalizing index) and is never written. -/
def fetch_text (env : Env) (s : LState) (url : String) : Except Err String :=
  match sGet s.cache url with
  | some t => .ok t
  | none =>
    let sp := splitURL url
    if sp.scheme = "http" || sp.scheme = "https" then
      match env.text url with
      | some t => .ok t
      | none => .error (.runtimeErr ("Error fetching " ++ url))
    else if sp.scheme = "file" then
      match env.fileRead sp.path with
      | some t => .ok t
      | none => .error (.runtimeErr ("Error reading " ++ url))
    else .error (.valueErr ("Unsupported scheme in url: " ++ url))

/-- fetch_text in method shape: the loader state rides along unchanged,
exactly as the source returns without ever assigning to self.cache. -/
def fetch_textS (env : Env) (url : String) (s : LState) : Except Err (String × LState) :=
  match fetch_text env s url with
  | .ok t => .ok (t, s)
  | .error e => .error e

/-- Loader.fetch: indexed node if cached, otherwise fetch text, parse and
index, injecting identifier values into fetched mappings when requested. -/
def fetch (L : Loader) (env : Env) (s : LState) (url : String)
    (inject_ids : Bool := true) : Except Err (Node × LState) :=
  if idxHas s url then .ok ((idxGet s url).getD .null, s)
  else
    match fetch_text env s url with
    | .error e => .error e
    | .ok text =>
      match env.parse text with
      | none => .error (.validationErr "Syntax error while parsing document")
      | some result =>
        match result with
        | .map m =>
          if inject_ids && L.identifiers ≠ [] then
            let m2 := L.identifiers.foldl
              (fun (mm : List (String × Node)) ident =>
                if dHas mm ident then mm else dSet mm ident (.str url)) m
            match L.identifiers.foldlM
                (fun (st : LState) ident =>
                  match dGet m2 ident with
                  | some (.str v) =>
                    Except.ok (idxSet st (expand_url L v url) (.map m2))
                  | _ => Except.error
                      (Err.runtimeErr "identifier value is not a string"))
                s with
            | .error e => .error e
            | .ok s2 => .ok (.map m2, s2)
          else .ok (result, idxSet s url result)
        | _ => .ok (result, idxSet s url result)

/-- Loader.check_file: a file URL whose path exists on disk. -/
def check_file (env : Env) (fn : String) : Bool :=
  if listStartsWith ("file://".data) fn.data then env.fileExists (splitURL fn).path
  else false

/-! ### Document rewriters -/

/-- Ascending code-point sort of keys (Python sorted on str). -/
def strLtB (a b : String) : Bool :=
  go a.data b.data
where
  go : List Char → List Char → Bool
    | [], [] => false
    | [], _ :: _ => true
    | _ :: _, [] => false
    | c :: cs, d :: ds =>
      if c.toNat < d.toNat then true
      else if d.toNat < c.toNat then false
      else go cs ds

def insertSorted (x : String) : List String → List String
  | [] => [x]
  | y :: ys => if strLtB x y then x :: y :: ys else y :: insertSorted x ys

def sortStr : List String → List String
  | [] => []
  | x :: xs => insertSorted x (sortStr xs)

/-- Loader._resolve_idmap: fields with a mapSubject whose value is a
mapping without import or include directives become lists, the inner keys
visited in lexicographic order and promoted to the subject attribute;
non-mapping entries are lifted through the mapPredicate or rejected. -/
def resolveIdmap (L : Loader) (document : List (String × Node)) :
    Except Err (List (String × Node)) :=
  L.idmap.foldlM
    (fun (doc : List (String × Node)) (kv : String × String) =>
      let (idmapField, subj) := kv
      match dGet doc idmapField with
      | some (.map m) =>
        if !dHas m "$import" && !dHas m "$include" then
          match (sortStr (m.map (·.1))).mapM
              (fun k =>
                match dGet m k with
                | some (.map vm) => Except.ok (Node.map (dSet vm subj (.str k)))
                | some other =>
                  match sGet L.mapPredicate idmapField with
                  | some p => Except.ok (Node.map (dSet [(p, other)] subj (.str k)))
                  | none => Except.error (Err.validationErr
                      ("mapSubject value for " ++ k ++
                       " is not a dict and does not have a mapPredicate"))
                | none => Except.ok Node.null) with
          | .error e => .error e
          | .ok ls => .ok (dSet doc idmapField (.arr ls))
        else .ok doc
      | _ => .ok doc)
    document

/-- Loader._type_dsl: rewrite a string matching the pattern of
typeDSLregex, one optional array-bracket suffix then one optional question
mark, over a base name free of open brackets and question marks. -/
def typeDsl (t : Node) : Node :=
  match t with
  | .str s =>
    let r := s.data.reverse
    let (r1, q) :=
      match r with
      | c :: rest => if c = '?' then (rest, true) else (r, false)
      | [] => (r, false)
    let (r2, a) :=
      match r1 with
      | c1 :: c2 :: rest => if c1 = ']' && c2 = '[' then (rest, true) else (r1, false)
      | _ => (r1, false)
    if r2 ≠ [] && r2.all (fun c => c ≠ '[' && c ≠ '?') then
      let first := Node.str (String.mk r2.reverse)
      let second :=
        if a then Node.map [("type", .str "array"), ("items", first)] else first
      if q then .arr [.str "null", second] else second
    else t
  | _ => t

/-- One-level list flattening.
Modelled from the spec: the flatten helper imported by the source is not
under src; the specification prescribes flattening list-valued type fields
one level before deduplication. -/
def flattenOne : List Node → List Node
  | [] => []
  | .arr ys :: rest => ys ++ flattenOne rest
  | x :: rest => x :: flattenOne rest

/-- First-seen-order deduplication (the seen/uniq loop of the source). -/
def dedupFirst (xs : List Node) : List Node :=
  go xs []
where
  go : List Node → List Node → List Node
    | [], _ => []
    | x :: rest, seen =>
      if seen.contains x then go rest seen
      else x :: go rest (seen ++ [x])

/-- Loader._resolve_type_dsl: apply the type DSL to every declared field,
then flatten and deduplicate list values. -/
def resolveTypeDsl (L : Loader) (document : List (String × Node)) :
    List (String × Node) :=
  L.typeDslFields.foldl
    (fun (doc : List (String × Node)) d =>
      match dGet doc d with
      | some datum =>
        let doc :=
          match datum with
          | .str _ => dSet doc d (typeDsl datum)
          | .arr xs => dSet doc d (.arr (xs.map typeDsl))
          | _ => doc
        match dGet doc d with
        | some (.arr ys) => dSet doc d (.arr (dedupFirst (flattenOne ys)))
        | _ => doc
      | none => doc)
    document

/-- Loader._resolve_identifier: expand each identifier field with scope,
claim the index slot when it is free or holds a string placeholder, and
advance the base URL. -/
def resolveIdentifier (L : Loader) (document : List (String × Node))
    (base_url : String) (s : LState) :
    Except Err (List (String × Node) × String × LState) :=
  L.identifiers.foldlM
    (fun (acc : List (String × Node) × String × LState) ident =>
      let (doc, base, st) := acc
      match dGet doc ident with
      | some (.str v) =>
        let ex := expand_url L v base true
        let doc := dSet doc ident (.str ex)
        let free :=
          match idxGet st ex with
          | none => true
          | some (.str _) => true
          | some _ => false
        let st := if free then idxSet st ex (.map doc) else st
        Except.ok (doc, ex, st)
      | some _ => Except.error (Err.validationErr "identifier field must be a string")
      | none => Except.ok acc)
    (document, base_url, s)

/-- Loader._resolve_identity: expand string members of list-valued identity
links and record their existence in the index. -/
def resolveIdentity (L : Loader) (document : List (String × Node))
    (base_url : String) (s : LState) : List (String × Node) × LState :=
  L.identityLinks.foldl
    (fun (acc : List (String × Node) × LState) ident =>
      let (doc, st) := acc
      match dGet doc ident with
      | some (.arr xs) =>
        let (ys, st2) := xs.foldl
          (fun (a : List Node × LState) n =>
            let (ys, st) := a
            match n with
            | .str v =>
              let ex := expand_url L v base_url true
              let st := if idxHas st ex then st else idxSet st ex (.str ex)
              (ys ++ [Node.str ex], st)
            | _ => (ys ++ [n], st))
          ([], st)
        (dSet doc ident (.arr ys), st2)
      | _ => acc)
    (document, s)

/-- Loader._normalize_fields: rewrite every key through expand_url with
vocab_term, moving renamed keys to the end as a dict insert would. -/
def normalizeFields (L : Loader) (document : List (String × Node)) :
    List (String × Node) :=
  (document.map (·.1)).foldl
    (fun (doc : List (String × Node)) d =>
      let d2 := expand_url L d "" false true
      if d ≠ d2 then
        match dGet doc d with
        | some v => dDel (dSet doc d2 v) d
        | none => doc
      else doc)
    document

/-- Loader._resolve_uris: expand string and list-of-string URL fields; the
scoped_ref depth is read on self while everything else reads the (possibly
sub-) loader, as in the source. -/
def resolveUris (self L : Loader) (document : List (String × Node))
    (base_url : String) : List (String × Node) :=
  L.urlFields.foldl
    (fun (doc : List (String × Node)) d =>
      match dGet doc d with
      | some (.str datum) =>
        dSet doc d (.str (expand_url L datum base_url false
          (L.vocabFields.contains d) (dGet self.scopedRefFields d)))
      | some (.arr xs) =>
        dSet doc d (.arr (xs.map
          (fun u =>
            match u with
            | .str us => Node.str (expand_url L us base_url false
                (L.vocabFields.contains d) (dGet self.scopedRefFields d))
            | other => other)))
      | _ => doc)
    document

/-- Loader.getid: the first identifier field carrying a string value. -/
def getid (L : Loader) (d : Node) : Option String :=
  match d with
  | .map m =>
    L.identifiers.findSome?
      (fun i =>
        match dGet m i with
        | some (.str v) => some v
        | _ => none)
  | _ => none

/-- Loader.add_schemas.
Modelled from the spec: the RDF graph and parser are out-of-scope
collaborators; every parse attempt fails silently in this environment, the
graph stays empty, and the property scan over an empty graph registers
nothing, so the loader is returned unchanged. -/
def add_schemas (L : Loader) (_schemas : Node) (_base : String) : Loader :=
  L

/-- Loader.validate_scoped: pop refScope fragment components, then walk
upward trying the link against the index one fragment level at a time. -/
def validate_scoped (L : Loader) (s : LState) (field link docid : String) :
    Except Err String :=
  match dGet L.scopedRefFields field with
  | some (.num depth) =>
    let split := splitURL docid
    let sp := splitOnC '/' split.fragment.data
    let keep := sp.length - min depth.toNat sp.length
    go split (sp.take keep).reverse
  | some _ => .error (.runtimeErr "refScope is not an integer")
  | none => .error (.runtimeErr "field has no declared refScope")
where
  tryURL (split : USplit) (rsp : List (List Char)) : String :=
    unsplitURL ⟨split.scheme, split.netloc, split.path, split.query,
      String.mk (joinSlash (rsp.reverse ++ [link.data]))⟩
  go (split : USplit) : List (List Char) → Except Err String
    | [] =>
      if idxHas s (tryURL split []) then .ok (tryURL split [])
      else .error (.validationErr
          ("Field " ++ field ++ " contains undefined reference to " ++ link))
    | c :: rest =>
      if idxHas s (tryURL split (c :: rest)) then .ok (tryURL split (c :: rest))
      else go split rest

/-! ### The recursive engine

resolve_all, resolve_ref, validate_links and validate_link are mutually
recursive through fetched documents, so they are embedded as one function
over a request type, structurally recursive on an explicit fuel counter
(the fuel-exhausted error is an artifact of the embedding; every theorem
below supplies enough fuel for its input). -/

inductive Req where
  | rall (doc : Node) (base : String) (fb : Option String) (chk : Bool)
  | rref (ref : Node) (base : Option String) (chk : Bool)
  | vlinks (doc : Node) (base : String)
  | vlink (field : String) (link : Node) (docid : String)

def errMsg : Err → String
  | .valueErr m => m
  | .validationErr m => m
  | .runtimeErr m => m

def joinNL : List String → String
  | [] => ""
  | [x] => x
  | x :: xs => x ++ "\n" ++ joinNL xs

/-- Thread state and first failure through the children of a mapping
(the field loop of resolve_all, with its field-name annotation). -/
def mapFieldsM (f : String → Node → LState → Except Err (Node × LState)) :
    List (String × Node) → LState → Except Err (List (String × Node) × LState)
  | [], s => .ok ([], s)
  | (k, v) :: rest, s =>
    match f k v s with
    | .error e => .error e
    | .ok (v2, s2) =>
      match mapFieldsM f rest s2 with
      | .error e => .error e
      | .ok (rest2, s3) => .ok ((k, v2) :: rest2, s3)

/-- A list element that resolve_all treats as a directive: a mapping
holding an import or mixin key. -/
def isDirElem : Node → Bool
  | .map vm => dHas vm "$import" || dHas vm "$mixin"
  | _ => false

/-- The while loop of the list branch of resolve_all: directive elements go
through resolve_ref and list results are spliced in place. -/
def spliceFoldM (fDir fEl : Node → LState → Except Err (Node × LState)) :
    List Node → LState → Except Err (List Node × LState)
  | [], s => .ok ([], s)
  | v :: rest, s =>
    let isDir := isDirElem v
    match (if isDir then fDir v s else fEl v s) with
    | .error e => .error e
    | .ok (r, s2) =>
      let items := if isDir then (match r with | .arr ys => ys | x => [x]) else [r]
      match spliceFoldM fDir fEl rest s2 with
      | .error e => .error e
      | .ok (rest2, s3) => .ok (items ++ rest2, s3)

/-- The url-field loop of validate_links: stop at the first validation
failure, keeping earlier rewrites, and surface other exceptions. -/
def vFields (f : String → Node → LState → Except Err (Node × LState))
    (identityLinks : List String) :
    List String → List (String × Node) → LState →
    Except Err (List (String × Node) × LState × Option Err)
  | [], m, s => .ok (m, s, none)
  | d :: rest, m, s =>
    if dHas m d && !identityLinks.contains d then
      match f d ((dGet m d).getD .null) s with
      | .ok (v2, s2) => vFields f identityLinks rest (dSet m d v2) s2
      | .error (.validationErr msg) => .ok (m, s, some (.validationErr msg))
      | .error e => .error e
    else vFields f identityLinks rest m s

/-- The child loop of validate_links over a mapping: collect validation
failures (swallowing those under noLinkCheck keys), annotated with the
child object id or the field name. -/
def vChildrenMap (f : Node → LState → Except Err (Node × LState))
    (gid : Node → Option String) (nolink : List String) :
    List (String × Node) → LState →
    Except Err (List (String × Node) × LState × List Err)
  | [], s => .ok ([], s, [])
  | (k, v) :: rest, s =>
    match f v s with
    | .ok (v2, s2) =>
      match vChildrenMap f gid nolink rest s2 with
      | .error e => .error e
      | .ok (rest2, s3, errs) => .ok ((k, v2) :: rest2, s3, errs)
    | .error (.validationErr msg) =>
      match vChildrenMap f gid nolink rest s with
      | .error e => .error e
      | .ok (rest2, s3, errs) =>
        if nolink.contains k then .ok ((k, v) :: rest2, s3, errs)
        else
          let wrapped :=
            match gid v with
            | some d2 => Err.validationErr ("While checking object " ++ d2 ++ ": " ++ msg)
            | none => Err.validationErr ("While checking field " ++ k ++ ": " ++ msg)
          .ok ((k, v) :: rest2, s3, wrapped :: errs)
    | .error e => .error e

/-- The child loop of validate_links over a list (positions are never under
noLinkCheck). -/
def vChildrenList (f : Node → LState → Except Err (Node × LState))
    (gid : Node → Option String) :
    List Node → LState → Except Err (List Node × LState × List Err)
  | [], s => .ok ([], s, [])
  | v :: rest, s =>
    match f v s with
    | .ok (v2, s2) =>
      match vChildrenList f gid rest s2 with
      | .error e => .error e
      | .ok (rest2, s3, errs) => .ok (v2 :: rest2, s3, errs)
    | .error (.validationErr msg) =>
      match vChildrenList f gid rest s with
      | .error e => .error e
      | .ok (rest2, s3, errs) =>
        let wrapped :=
          match gid v with
          | some d2 => Err.validationErr ("While checking object " ++ d2 ++ ": " ++ msg)
          | none => Err.validationErr ("While checking position: " ++ msg)
        .ok (v :: rest2, s3, wrapped :: errs)
    | .error e => .error e

/-- The element loop of validate_link over a list value: validation errors
aggregate and are joined, other exceptions surface. -/
def vLinkList (f : Node → LState → Except Err (Node × LState)) :
    List Node → LState → Except Err (List Node × LState × List Err)
  | [], s => .ok ([], s, [])
  | v :: rest, s =>
    match f v s with
    | .ok (v2, s2) =>
      match vLinkList f rest s2 with
      | .error e => .error e
      | .ok (rest2, s3, errs) => .ok (v2 :: rest2, s3, errs)
    | .error (.validationErr msg) =>
      match vLinkList f rest s with
      | .error e => .error e
      | .ok (rest2, s3, errs) => .ok (v :: rest2, s3, Err.validationErr msg :: errs)
    | .error e => .error e

/-- The shared tail of resolve_all after directive handling: run the
rewriter pipeline on mappings, resolve list elements with splicing, bind
identity links named by the metadata, and finish with link validation.
`stepL` recurses as the (possibly sub-) loader, `stepSelf` as the loader
resolve_all was invoked on. -/
def resolveBody
    (stepL stepSelf : Req → LState → Except Err ((Node × Node) × LState))
    (self loader : Loader)
    (document : Node) (base1 file_base : String) (metadata : Node)
    (chk : Bool) (s : LState) : Except Err ((Node × Node) × LState) := do
  let (document2, metadata2, s5) ←
    match document with
    | .map m2 => do
      let m3 := normalizeFields loader m2
      let m4 ←
        match resolveIdmap loader m3 with
        | .ok x => pure x
        | .error e => throw e
      let m5 := resolveTypeDsl loader m4
      let (m6, base2, s3) ←
        match resolveIdentifier loader m5 base1 s with
        | .ok x => pure x
        | .error e => throw e
      let (m7, s4) := resolveIdentity loader m6 base2 s3
      let m8 := resolveUris self loader m7 base2
      let (m9, s5) ← mapFieldsM
        (fun k v st =>
          match stepL (.rall v base2 (some file_base) false) st with
          | .ok ((r, _), st2) => .ok (r, st2)
          | .error (.validationErr msg) => .error (.validationErr
              ("(" ++ file_base ++ ") Validation error in field " ++ k ++ ": " ++ msg))
          | .error e => .error e)
        m8 s4
      pure (Node.map m9, metadata, s5)
    | .arr xs => do
      let (ys, s3) ← spliceFoldM
        (fun v st =>
          match stepL (.rref v (some file_base) false) st with
          | .ok ((r, _), st2) => .ok (r, st2)
          | .error (.validationErr msg) => .error (.validationErr
              ("(" ++ file_base ++ ") Validation error in position: " ++ msg))
          | .error e => .error e)
        (fun v st =>
          match stepL (.rall v base1 (some file_base) false) st with
          | .ok ((r, _), st2) => .ok (r, st2)
          | .error (.validationErr msg) => .error (.validationErr
              ("(" ++ file_base ++ ") Validation error in position: " ++ msg))
          | .error e => .error e)
        xs s
      let (metadata2, s4) :=
        match metadata with
        | .map mm =>
          let (mm2, st2) := loader.identityLinks.foldl
            (fun (acc : List (String × Node) × LState) ident =>
              let (mm, st) := acc
              match dGet mm ident with
              | some (.str v) =>
                let ex := expand_url loader v base1 true
                (dSet mm ident (.str ex), idxSet st ex (.arr ys))
              | _ => (mm, st))
            (mm, s3)
          (Node.map mm2, st2)
        | other => (other, s3)
      pure (Node.arr ys, metadata2, s4)
    | other => pure (other, metadata, s)
  if chk then do
    let ((vd, _), s6) ← stepSelf (.vlinks document2 "") s5
    pure ((vd, metadata2), s6)
  else
    pure ((document2, metadata2), s5)

/-- The engine: one fuel-indexed step function covering resolve_all,
resolve_ref, validate_links and validate_link. -/
def rrStep : Nat → Loader → Env → Req → LState → Except Err ((Node × Node) × LState)
  | 0, _, _, _, _ => .error (.runtimeErr "recursion fuel exhausted")
  | Nat.succ n, L, env, req, s =>
    match req with
    | .rall doc base fb chk =>
      let file_base := fb.getD base
      match doc with
      | .map m =>
        if dHas m "$import" || dHas m "$include" then
          rrStep n L env (.rref doc (some file_base) chk) s
        else if dHas m "$mixin" then
          rrStep n L env (.rref doc (some base) chk) s
        else do
          let base1 ←
            if dHas m "$base" then
              match dGet m "$base" with
              | some (.str b) => pure b
              | _ => throw (Err.runtimeErr "base directive must be a string")
            else pure base
          let (nc1, s1) ←
            if dHas m "$profile" then do
              let profURL ←
                match dGet m "$profile" with
                | some (.str p) => pure p
                | _ => throw (Err.runtimeErr "profile directive must be a string")
              let (_, s1) ← fetch L env s profURL
              let L2 ←
                match add_namespaces (subLoader L) ((dGet m "$namespaces").getD (.map [])) with
                | .ok l => pure l
                | .error e => throw e
              pure (some (add_schemas L2 ((dGet m "$schemas").getD (.arr [])) profURL), s1)
            else pure (none, s)
          let nc2 ←
            if dHas m "$namespaces" then
              match add_namespaces (nc1.getD (subLoader L)) ((dGet m "$namespaces").getD .null) with
              | .ok l => pure (some l)
              | .error e => throw e
            else pure nc1
          let nc3 :=
            if dHas m "$schemas" then
              some (add_schemas (nc2.getD (subLoader L)) ((dGet m "$schemas").getD .null) file_base)
            else nc2
          let loader := nc3.getD L
          let (document, metadata, s2) ←
            if dHas m "$graph" then do
              let meta0 := copyWithoutKey m "$graph"
              let body := (dGet m "$graph").getD .null
              let ((rm, _), s2) ← rrStep n loader env
                (.rall (.map meta0) base1 (some file_base) false) s1
              match rm with
              | .map mm => pure (body, Node.map mm, s2)
              | _ => throw (Err.validationErr "metadata must be a dict")
            else pure (Node.map m, Node.map [], s1)
          resolveBody (fun r st => rrStep n loader env r st)
            (fun r st => rrStep n L env r st)
            L loader document base1 file_base metadata chk s2
      | .arr _ =>
        resolveBody (fun r st => rrStep n L env r st)
          (fun r st => rrStep n L env r st)
          L L doc base file_base (.map []) chk s
      | _ => .ok ((doc, .map []), s)
    | .rref ref b chk => do
      let base_url :=
        match b with
        | some bs => if bs = "" then env.cwd else bs
        | none => env.cwd
      let (refN, obj, inc, mixin) ←
        match ref with
        | .map m =>
          if dHas m "$import" then
            if m.length = 1 then
              pure ((dGet m "$import").getD .null, (none : Option (List (String × Node))),
                false, (none : Option (List (String × Node))))
            else throw (Err.valueErr "import must be the only field")
          else if dHas m "$include" then
            if m.length = 1 then
              pure ((dGet m "$include").getD .null, none, true, none)
            else throw (Err.valueErr "include must be the only field")
          else if dHas m "$mixin" then
            pure ((dGet m "$mixin").getD .null, none, false, some m)
          else
            match L.identifiers.findSome? (fun i => dGet m i) with
            | some r =>
              if r.falsy then throw (Err.valueErr "object does not have identifier field")
              else pure (r, some m, false, none)
            | none => throw (Err.valueErr "object does not have identifier field")
        | other => pure (other, none, false, none)
      let rs ←
        match refN with
        | .str rs => pure rs
        | _ => throw (Err.valueErr "reference must be a string")
      let url := expand_url L rs base_url obj.isSome
      if idxHas s url && mixin.isNone then
        pure (((idxGet s url).getD .null, Node.map []), s)
      else if inc then do
        let t ←
          match fetch_text env s url with
          | .ok t => pure t
          | .error e => throw e
        pure ((Node.str t, Node.map []), s)
      else do
        let (docOpt, doc_url, s1) ←
          match obj with
          | some _ => pure ((none : Option Node), url, s)
          | none => do
            let (doc_url, _) := urldefrag url
            if idxHas s doc_url && mixin.isNone then
              throw (Err.validationErr ("Reference not found in file " ++ doc_url))
            else do
              let (d, s1) ←
                match fetch L env s doc_url (mixin.isNone) with
                | .ok x => pure x
                | .error e => throw e
              pure (some d, doc_url, s1)
        let objInjected :=
          match obj with
          | some m => some (L.identifiers.foldl
              (fun (mm : List (String × Node)) i => dSet mm i (.str url)) m)
          | none => none
        match mixin with
        | some mixm => do
          let dm ←
            match docOpt with
            | some (.map dm) => pure dm
            | _ => throw (Err.runtimeErr "mixin target must be a mapping")
          let dm2 := mixm.foldl
            (fun (acc : List (String × Node)) kv => dSet acc kv.1 kv.2) dm
          let dm3 := dDel dm2 "$mixin"
          let ((resolved, metadata), s2) ← rrStep n L env
            (.rall (.map dm3) base_url (some doc_url) chk) s1
          match resolved with
          | .map rm =>
            if dHas rm "$graph" then
              pure (((dGet rm "$graph").getD .null, Node.map (copyWithoutKey rm "$graph")), s2)
            else pure ((resolved, metadata), s2)
          | _ => pure ((resolved, metadata), s2)
        | none => do
          let target :=
            match docOpt with
            | some d => if d.falsy then Node.null else d
            | none =>
              match objInjected with
              | some m2 => Node.map m2
              | none => Node.null
          let ((_, metadata), s2) ← rrStep n L env
            (.rall target doc_url none chk) s1
          let resolved ←
            if idxHas s2 url then pure ((idxGet s2 url).getD .null)
            else throw (Err.runtimeErr ("Reference " ++ url ++ " is not in the index"))
          match resolved with
          | .map rm =>
            if dHas rm "$graph" then
              pure (((dGet rm "$graph").getD .null, Node.map (copyWithoutKey rm "$graph")), s2)
            else pure ((resolved, metadata), s2)
          | _ => pure ((resolved, metadata), s2)
    | .vlinks doc base =>
      let docid := (getid L doc).getD base
      match doc with
      | .map m => do
        let (m2, s1, fieldErr) ←
          match vFields
              (fun d v st =>
                match rrStep n L env (.vlink d v docid) st with
                | .ok ((r, _), st2) => .ok (r, st2)
                | .error e => .error e)
              L.identityLinks L.urlFields m s with
          | .ok x => pure x
          | .error e => throw e
        let (m3, s2, errs) ←
          match vChildrenMap
              (fun v st =>
                match rrStep n L env (.vlinks v docid) st with
                | .ok ((r, _), st2) => .ok (r, st2)
                | .error e => .error e)
              (getid L) L.nolinkcheck m2 s1 with
          | .ok x => pure x
          | .error e => throw e
        let allErrs := (match fieldErr with | some e => [e] | none => []) ++ errs
        match allErrs with
        | [] => pure ((Node.map m3, Node.map []), s2)
        | [e] => throw e
        | _ => throw (Err.validationErr (joinNL (allErrs.map errMsg)))
      | .arr xs => do
        let (ys, s2, errs) ←
          match vChildrenList
              (fun v st =>
                match rrStep n L env (.vlinks v docid) st with
                | .ok ((r, _), st2) => .ok (r, st2)
                | .error e => .error e)
              (getid L) xs s with
          | .ok x => pure x
          | .error e => throw e
        match errs with
        | [] => pure ((Node.arr ys, Node.map []), s2)
        | [e] => throw e
        | _ => throw (Err.validationErr (joinNL (errs.map errMsg)))
      | _ => .ok ((doc, .map []), s)
    | .vlink field link docid =>
      if L.nolinkcheck.contains field then .ok ((link, .map []), s)
      else
        match link with
        | .str ls =>
          if L.vocabFields.contains field then
            if !sHas L.vocab ls && !idxHas s ls && !sHas L.rvocab ls then
              if (dGet L.scopedRefFields field).isSome then
                match validate_scoped L s field ls docid with
                | .ok u => .ok ((.str u, .map []), s)
                | .error e => .error e
              else if !check_file env ls then
                .error (.validationErr
                  ("Field " ++ field ++ " contains undefined reference to " ++ ls))
              else .ok ((link, .map []), s)
            else .ok ((link, .map []), s)
          else
            if !idxHas s ls && !sHas L.rvocab ls then
              if (dGet L.scopedRefFields field).isSome then
                match validate_scoped L s field ls docid with
                | .ok u => .ok ((.str u, .map []), s)
                | .error e => .error e
              else if !check_file env ls then
                .error (.validationErr
                  ("Field " ++ field ++ " contains undefined reference to " ++ ls))
              else .ok ((link, .map []), s)
            else .ok ((link, .map []), s)
        | .arr xs => do
          let (ys, s2, errs) ←
            match vLinkList
                (fun v st =>
                  match rrStep n L env (.vlink field v docid) st with
                  | .ok ((r, _), st2) => .ok (r, st2)
                  | .error e => .error e)
                xs s with
            | .ok x => pure x
            | .error e => throw e
          match errs with
          | [] => pure ((Node.arr ys, Node.map []), s2)
          | _ => throw (Err.validationErr (joinNL (errs.map errMsg)))
        | .map _ => do
          let ((r, _), s2) ← rrStep n L env (.vlinks link docid) s
          pure ((r, Node.map []), s2)
        | _ => .error (.validationErr "Link must be a str, list, or a dict.")

/-- Loader.resolve_all in method shape. -/
def resolve_all (fuel : Nat) (L : Loader) (env : Env) (doc : Node)
    (base : String) (fb : Option String) (chk : Bool) (s : LState) :
    Except Err ((Node × Node) × LState) :=
  rrStep fuel L env (.rall doc base fb chk) s

/-- Loader.resolve_ref in method shape. -/
def resolve_ref (fuel : Nat) (L : Loader) (env : Env) (ref : Node)
    (b : Option String) (chk : Bool) (s : LState) :
    Except Err ((Node × Node) × LState) :=
  rrStep fuel L env (.rref ref b chk) s

/-- Loader.validate_links in method shape. -/
def validate_links (fuel : Nat) (L : Loader) (env : Env) (doc : Node)
    (base : String) (s : LState) : Except Err ((Node × Node) × LState) :=
  rrStep fuel L env (.vlinks doc base) s

/-- Loader.validate_link in method shape. -/
def validate_link (fuel : Nat) (L : Loader) (env : Env) (field : String)
    (link : Node) (docid : String) (s : LState) :
    Except Err ((Node × Node) × LState) :=
  rrStep fuel L env (.vlink field link docid) s

/-! ### Derived notions used by the theorems -/

/-- The reserved directive keys of the document format. -/
def reservedKeys : List String :=
  ["$import", "$include", "$mixin", "$base", "$profile", "$namespaces",
   "$schemas", "$graph"]

/-- A document that carries no reserved directive key at any level. -/
def cleanNode : Node → Bool
  | .null => true
  | .bool _ => true
  | .num _ => true
  | .str _ => true
  | .arr xs => goL xs
  | .map kvs => goM kvs
where
  goL : List Node → Bool
    | [] => true
    | x :: xs => cleanNode x && goL xs
  goM : List (String × Node) → Bool
    | [] => true
    | (k, v) :: rest => !reservedKeys.contains k && cleanNode v && goM rest

/-- Nesting depth of a node, used to supply enough fuel to the engine. -/
def ndepth : Node → Nat
  | .null => 0
  | .bool _ => 0
  | .num _ => 0
  | .str _ => 0
  | .arr xs => 1 + goL xs
  | .map kvs => 1 + goM kvs
where
  goL : List Node → Nat
    | [] => 0
    | x :: xs => max (ndepth x) (goL xs)
  goM : List (String × Node) → Nat
    | [] => 0
    | (_, v) :: rest => max (ndepth v) (goM rest)

/-- The attempt list of the scoped upward search, longest fragment prefix
first, as the specification describes it: append the link to the popped
component list, then walk up one level per attempt. -/
def scopedTriesRev (mk : List (List Char) → String) (link : List Char) :
    List (List Char) → List String
  | [] => [mk [link]]
  | c :: rest => mk ((c :: rest).reverse ++ [link]) :: scopedTriesRev mk link rest

/-! ### Concrete loaders, environments and states for the scenarios -/

/-- A loader with an empty compiled context. -/
def L0 : Loader := compileCtx []

/-- The empty loader state. -/
def state0 : LState := { idx := [], cache := [] }

/-- An environment with no reachable resources. -/
def envNone : Env :=
  { text := fun _ => none, fileRead := fun _ => none, parse := fun _ => none,
    fileExists := fun _ => false, cwd := "file:///cwd/" }

/-- S5 context: field source is a scoped reference with refScope 2. -/
def c1L : Loader :=
  compileCtx [("source", .map [("@type", .str "@id"), ("refScope", .num 2)])]

/-- The S5 context amended to refScope 1. -/
def c1L1 : Loader :=
  compileCtx [("source", .map [("@type", .str "@id"), ("refScope", .num 1)])]

/-- S5 state: the index knows file:///w#main/outA. -/
def c1S : LState :=
  { idx := [("file:///w#main/outA", .str "file:///w#main/outA")], cache := [] }

/-- A context declaring inputs as an idmap with subject id (no predicate). -/
def c2L : Loader :=
  compileCtx [("inputs", .map [("mapSubject", .str "id")])]

/-- Transport for the C2 scenario: file:///u parses to the mapping a: {}. -/
def c2Env : Env :=
  { envNone with
    fileRead := fun p => if p = "/u" then some "raw" else none,
    parse := fun t => if t = "raw" then some (.map [("a", .map [])]) else none }

/-- C2 document: the idmap field holds an import directive. -/
def c2doc : Node := .map [("inputs", .map [("$import", .str "file:///u")])]

/-- The result of the first resolution pass on c2doc. -/
def c2pass1 : Node := .map [("inputs", .map [("a", .map [])])]

/-- The state after the first resolution pass on c2doc. -/
def c2state1 : LState :=
  { idx := [("file:///u", .map [("a", .map [])])], cache := [] }

/-- The result of resolving c2pass1 again: the imported mapping has now
been desugared by the idmap rewriter. -/
def c2pass2 : Node := .map [("inputs", .arr [.map [("id", .str "a")]])]

/-- A context with the identifier field id. -/
def c3L : Loader := compileCtx [("id", .str "@id")]

/-- C3 document: two distinct graph entries claim the same identifier. -/
def c3doc : Node := .map [("$graph", .arr [
  .map [("id", .str "s"), ("a", .str "1")],
  .map [("id", .str "s"), ("a", .str "2")]])]

/-- The first resolved node of c3doc, owner of the index entry. -/
def c3node1 : Node := .map [("id", .str "file:///w#s"), ("a", .str "1")]

/-- The second resolved node of c3doc: it carries the same identifier but
is not the index entry. -/
def c3node2 : Node := .map [("id", .str "file:///w#s"), ("a", .str "2")]

/-- Transport for the mixin scenario: file:///base.yaml parses to the
mapping label: x, run: r. -/
def c8Env : Env :=
  { envNone with
    fileRead := fun p => if p = "/base.yaml" then some "t" else none,
    parse := fun t =>
      if t = "t" then some (.map [("label", .str "x"), ("run", .str "r")]) else none }

/-- The mixin directive with a sibling override. -/
def c8mixin : Node := .map [("$mixin", .str "file:///base.yaml"), ("label", .str "override")]

/-- A context contributing one vocabulary entry. -/
def c9L : Loader := compileCtx [("p", .str "http://x/")]

/-- A context marking the field type as a type-DSL vocabulary field. -/
def c6L : Loader :=
  compileCtx [("type", .map [("@type", .str "@vocab"), ("typeDSL", .bool true),
    ("@id", .str "http://t/")])]

/-- S3 context: inputs is an idmap with subject id and predicate type. -/
def c7L : Loader :=
  compileCtx [("inputs", .map [("mapSubject", .str "id"), ("mapPredicate", .str "type")])]

/-- The scoped upward search as the specification words it: pop the
refScope components from the fragment, then record one attempt per
remaining prefix, longest first, appending the link each time; the first
attempt found in the index wins, and exhaustion is a validation failure. -/
def scopedSearchSpec (s : LState) (field link docid : String)
    (d : Int) : Except Err String :=
  let split := splitURL docid
  let sp := splitOnC '/' split.fragment.data
  let kept := sp.take (sp.length - min d.toNat sp.length)
  let mk := fun comps => unsplitURL ⟨split.scheme, split.netloc, split.path,
    split.query, String.mk (joinSlash comps)⟩
  match (scopedTriesRev mk link.data kept.reverse).find?
      (fun u => idxHas s u) with
  | some u => .ok u
  | none => .error (.validationErr
      ("Field " ++ field ++ " contains undefined reference to " ++ link))

/-! ## Theorems -/

theorem validate_scoped_go_char (s : LState) (field link : String) (split : USplit) :
    ∀ rsp : List (List Char),
      validate_scoped.go s field link split rsp =
        match (scopedTriesRev
            (fun comps => unsplitURL ⟨split.scheme, split.netloc, split.path,
              split.query, String.mk (joinSlash comps)⟩) link.data rsp).find?
            (fun u => idxHas s u) with
        | some u => .ok u
        | none => .error (.validationErr
            ("Field " ++ field ++ " contains undefined reference to " ++ link))
  | [] => by
    simp only [validate_scoped.go, validate_scoped.tryURL, scopedTriesRev,
      List.find?, List.reverse_nil, List.nil_append]
    split <;> simp_all
  | c :: rest => by
    have ih := validate_scoped_go_char s field link split rest
    simp only [validate_scoped.go, validate_scoped.tryURL, scopedTriesRev,
      List.find?]
    split <;> simp_all

/-- C1: counterexample.  At docid file:///w#main/step1, with refScope 2 for
field source, link outA and an index containing file:///w#main/outA, the
source pops both fragment components, tries only file:///w#outA and fails;
it does not return file:///w#main/outA as the claim states. -/
theorem c1_scoped_search_counterexample :
    validate_link 5 c1L envNone "source" (.str "outA") "file:///w#main/step1" c1S
      = .error (.validationErr "Field source contains undefined reference to outA")
    ∧ validate_link 5 c1L envNone "source" (.str "outA") "file:///w#main/step1" c1S
        ≠ .ok ((.str "file:///w#main/outA", .map []), c1S) := by
  exact ⟨by decide, by decide⟩

/-- C1 (amended): the scoped search pops refScope components from the
fragment and then tries the link against the index once per remaining
prefix, longest first, walking up one level per attempt and failing on
exhaustion; with refScope 1 (not 2) the S5 scenario returns
file:///w#main/outA, while with refScope 2 the only attempt is
file:///w#outA. -/
theorem c1_scoped_search_amended :
    (∀ (L : Loader) (s : LState) (field link docid : String) (d : Int),
        dGet L.scopedRefFields field = some (.num d) →
        validate_scoped L s field link docid = scopedSearchSpec s field link docid d)
    ∧ validate_link 5 c1L1 envNone "source" (.str "outA") "file:///w#main/step1" c1S
        = .ok ((.str "file:///w#main/outA", .map []), c1S)
    ∧ scopedTriesRev
        (fun comps => unsplitURL ⟨"file", "", "/w", "", String.mk (joinSlash comps)⟩)
        "outA".data [] = ["file:///w#outA"] := by
  refine ⟨?_, by decide, by decide⟩
  intro L s field link docid d h
  simp only [validate_scoped, scopedSearchSpec, h]
  exact validate_scoped_go_char s field link (splitURL docid) _

/-- C1 witness: the amended search equation instantiated at the S5
configuration with refScope 1. -/
theorem c1_scoped_search_amended_witness :
    dGet c1L1.scopedRefFields "source" = some (.num 1)
    ∧ validate_scoped c1L1 c1S "source" "outA" "file:///w#main/step1"
        = scopedSearchSpec c1S "source" "outA" "file:///w#main/step1" 1 :=
  ⟨by decide, c1_scoped_search_amended.1 c1L1 c1S "source" "outA"
    "file:///w#main/step1" 1 (by decide)⟩

/-- C2: counterexample.  When an idmap field holds an import directive, the
first resolution pass replaces it by the imported mapping untouched (idmap
desugaring ran before the recursion), and the second pass desugars it, so
resolve_all of resolve_all differs from resolve_all. -/
theorem c2_idempotence_counterexample :
    resolve_all 10 c2L c2Env c2doc "file:///w" none true state0
        = .ok ((c2pass1, .map []), c2state1)
    ∧ resolve_all 10 c2L c2Env c2pass1 "file:///w" none true c2state1
        = .ok ((c2pass2, .map []), c2state1)
    ∧ c2pass1 ≠ c2pass2 :=
  ⟨by decide, by decide, by decide⟩

/-- C3: counterexample.  With two graph entries claiming the identifier
file:///w#s, the index keeps the first node; the second resolved node
carries the same identifier but differs from the index entry, refuting the
universal index invariant. -/
theorem c3_index_invariant_counterexample :
    resolve_all 10 c3L envNone c3doc "file:///w" none true state0
        = .ok ((.arr [c3node1, c3node2], .map []),
            { idx := [("file:///w#s", c3node1)], cache := [] })
    ∧ getid c3L c3node2 = some "file:///w#s"
    ∧ idxGet { idx := [("file:///w#s", c3node1)], cache := [] } "file:///w#s"
        ≠ some c3node2 :=
  ⟨by decide, by decide, by decide⟩

/-- C8: a mapping in which the import or include directive coexists with
any other key is rejected by resolve_ref with a ValueError, while a mixin
directive accepts sibling keys, which are overlaid onto the deep-copied
fetched document with the mixin key removed. -/
theorem c8_directive_exclusivity :
    (∀ (n : Nat) (L : Loader) (env : Env) (m : List (String × Node))
        (b : Option String) (chk : Bool) (s : LState),
        dHas m "$import" = true → m.length ≠ 1 →
        resolve_ref (n + 1) L env (.map m) b chk s
          = .error (.valueErr "import must be the only field"))
    ∧ (∀ (n : Nat) (L : Loader) (env : Env) (m : List (String × Node))
        (b : Option String) (chk : Bool) (s : LState),
        dHas m "$import" = false → dHas m "$include" = true → m.length ≠ 1 →
        resolve_ref (n + 1) L env (.map m) b chk s
          = .error (.valueErr "include must be the only field"))
    ∧ resolve_ref 10 L0 c8Env c8mixin (some "file:///w") true state0
        = .ok ((.map [("label", .str "override"), ("run", .str "r")], .map []),
            { idx := [("file:///base.yaml",
                .map [("label", .str "x"), ("run", .str "r")])], cache := [] }) := by
  refine ⟨?_, ?_, by decide⟩
  · intro n L env m b chk s h1 h2
    simp [resolve_ref, rrStep, h1, h2, bind, Except.bind]
  · intro n L env m b chk s h0 h1 h2
    simp [resolve_ref, rrStep, h0, h1, h2, bind, Except.bind]

/-- C8 witness: the sibling-rejection branches instantiated at concrete
two-key mappings. -/
theorem c8_directive_exclusivity_witness :
    resolve_ref 10 L0 c8Env (.map [("$import", .str "file:///base.yaml"), ("x", .str "y")])
        (some "file:///w") true state0 = .error (.valueErr "import must be the only field")
    ∧ resolve_ref 10 L0 c8Env (.map [("$include", .str "file:///base.yaml"), ("x", .str "y")])
        (some "file:///w") true state0 = .error (.valueErr "include must be the only field") :=
  ⟨c8_directive_exclusivity.1 9 L0 c8Env _ _ true state0 (by decide) (by decide),
   c8_directive_exclusivity.2.1 9 L0 c8Env _ _ true state0 (by decide) (by decide) (by decide)⟩

/-- C9: add_context on a loader whose vocabulary is already populated is
rejected with the context-rebuild validation error before any mutation; a
loader built from a vocabulary-bearing context therefore keeps its
compiled context for its lifetime. -/
theorem c9_context_rebuild :
    (∀ (L : Loader) (newctx : List (String × Node)),
        L.vocab ≠ [] →
        add_context L newctx
          = .error (.validationErr "Refreshing context that already has stuff in it"))
    ∧ mkLoader [("p", .str "http://x/")] = .ok c9L
    ∧ add_context c9L [("q", .str "http://y/")]
        = .error (.validationErr "Refreshing context that already has stuff in it") := by
  refine ⟨?_, by decide, by decide⟩
  intro L newctx h
  unfold add_context
  rw [if_pos h]

/-- C9 witness: the rejection applied to the concrete vocabulary-bearing
loader. -/
theorem c9_context_rebuild_witness :
    c9L.vocab ≠ [] ∧ add_context c9L [("z", .str "http://z/")]
      = .error (.validationErr "Refreshing context that already has stuff in it") :=
  ⟨by decide, c9_context_rebuild.1 c9L [("z", .str "http://z/")] (by decide)⟩

/-- C10: fetch_text serves a cached URL from the cache without consulting
the transport, and an uncached URL from the transport without writing the
cache, so a second call on an uncached URL reaches the transport again. -/
theorem c10_fetch_text_cache_frame :
    (∀ (env env2 : Env) (s : LState) (url t : String),
        sGet s.cache url = some t →
        fetch_textS env url s = .ok (t, s) ∧ fetch_textS env2 url s = .ok (t, s))
    ∧ (∀ (env : Env) (s : LState) (url t : String),
        sGet s.cache url = none →
        (splitURL url).scheme = "file" →
        env.fileRead (splitURL url).path = some t →
        fetch_textS env url s = .ok (t, s)
        ∧ (fetch_textS env url s).bind (fun p => fetch_textS env url p.2) = .ok (t, s))
    ∧ (∀ (env : Env) (s : LState) (url t : String),
        sGet s.cache url = none →
        ((splitURL url).scheme = "http" ∨ (splitURL url).scheme = "https") →
        env.text url = some t →
        fetch_textS env url s = .ok (t, s)) := by
  refine ⟨?_, ?_, ?_⟩
  · intro env env2 s url t h
    constructor <;> simp [fetch_textS, fetch_text, h]
  · intro env s url t h1 h2 h3
    have hbase : fetch_textS env url s = .ok (t, s) := by
      simp [fetch_textS, fetch_text, h1, h2, h3]
    exact ⟨hbase, by rw [hbase]; simpa [Except.bind] using hbase⟩
  · intro env s url t h1 h2 h3
    rcases h2 with h2 | h2 <;> simp [fetch_textS, fetch_text, h1, h2, h3]

/-- C10 witness: the three branches instantiated at a cached URL, an
uncached file URL, and an uncached http URL. -/
theorem c10_fetch_text_cache_frame_witness :
    (fetch_textS envNone "file:///c" { idx := [], cache := [("file:///c", "cached")] }
        = .ok ("cached", { idx := [], cache := [("file:///c", "cached")] }))
    ∧ fetch_textS c2Env "file:///u" state0 = .ok ("raw", state0)
    ∧ fetch_textS { envNone with text := fun u => if u = "http://h/x" then some "web" else none }
        "http://h/x" state0 = .ok ("web", state0) :=
  ⟨(c10_fetch_text_cache_frame.1 envNone envNone _ "file:///c" "cached" (by decide)).1,
   (c10_fetch_text_cache_frame.2.1 c2Env state0 "file:///u" "raw" (by decide) (by decide)
      (by decide)).1,
   c10_fetch_text_cache_frame.2.2 _ state0 "http://h/x" "web" (by decide) (by decide)
      (by decide)⟩

/-- C7: idmap desugaring promotes the inner keys, in lexicographic order,
to the declared subject attribute; non-mapping values are lifted through
the declared mapPredicate and rejected without one; mappings holding
an import or include directive are left untouched.  The S3 instance yields
the entries id x / type string and id y / type int. -/
theorem c7_idmap_desugaring :
    resolveIdmap c7L
        [("inputs", .map [("x", .str "string"), ("y", .map [("type", .str "int")])])]
      = .ok [("inputs", .arr [.map [("type", .str "string"), ("id", .str "x")],
                              .map [("type", .str "int"), ("id", .str "y")]])]
    ∧ (∀ m : List (String × Node), dHas m "$import" = true →
        resolveIdmap c7L [("inputs", .map m)] = .ok [("inputs", .map m)])
    ∧ (∀ m : List (String × Node), dHas m "$include" = true →
        resolveIdmap c7L [("inputs", .map m)] = .ok [("inputs", .map m)])
    ∧ resolveIdmap c2L [("inputs", .map [("x", .str "string")])]
      = .error (.validationErr
          "mapSubject value for x is not a dict and does not have a mapPredicate")
    ∧ dGet [("type", Node.str "string"), ("id", .str "x")] "id" = some (.str "x")
    ∧ dGet [("type", Node.str "string"), ("id", .str "x")] "type" = some (.str "string") := by
  have hid : c7L.idmap = [("inputs", "id")] := by decide
  refine ⟨by decide, ?_, ?_, by decide, by decide, by decide⟩
  · intro m h
    have h2 : dGet m "$import" ≠ none := by
      simpa [dHas, Option.isSome_iff_ne_none] using h
    simp [resolveIdmap, hid, dGet, dHas, List.foldlM, h2]
  · intro m h
    have h2 : dGet m "$include" ≠ none := by
      simpa [dHas, Option.isSome_iff_ne_none] using h
    simp [resolveIdmap, hid, dGet, dHas, List.foldlM, h2]

/-- C7 witness: the untouched-directive branches instantiated at a
concrete import mapping and a concrete include mapping. -/
theorem c7_idmap_desugaring_witness :
    resolveIdmap c7L [("inputs", .map [("$import", .str "file:///u")])]
        = .ok [("inputs", .map [("$import", .str "file:///u")])]
    ∧ resolveIdmap c7L [("inputs", .map [("$include", .str "file:///u")])]
        = .ok [("inputs", .map [("$include", .str "file:///u")])] :=
  ⟨c7_idmap_desugaring.2.1 _ (by decide),
   c7_idmap_desugaring.2.2.1 _ (by decide)⟩

/-- C4: when the prefix of a reference before its first colon is a
vocabulary key bound to a value whose concatenation with the suffix parses
with a URL scheme (the data model keeps absolute URLs in the vocabulary),
expand_url returns the vocabulary expansion followed by the suffix. -/
theorem c4_vocab_prefix_expansion :
    ∀ (L : Loader) (url base v : String),
      url ≠ "@id" → url ≠ "@type" →
      url.data.contains ':' = true →
      sGet L.vocab (colonPfx url) = some v →
      (splitURL (v ++ String.mk (url.data.drop ((colonPfx url).data.length + 1)))).scheme
        ≠ "" →
      expand_url L url base
        = v ++ String.mk (url.data.drop ((colonPfx url).data.length + 1)) := by
  intro L url base v h1 h2 h3 h4 h5
  have hnb : L.vocab ≠ [] := by
    intro he
    rw [he] at h4
    simp [sGet] at h4
  have hmem : ':' ∈ url.data := by simpa using h3
  have h5x : ¬(splitURL
      (v ++ String.mk (url.data.drop ((colonPfx url).length + 1)))).scheme = "" := h5
  simp [expand_url, h1, h2, h4, hnb, hmem, h5x]

/-- C4 witness: the expansion equation at the vocabulary p, reference p:s
and base file:///b. -/
theorem c4_vocab_prefix_expansion_witness :
    expand_url c9L "p:s" "file:///b" = "http://x/s" :=
  (c4_vocab_prefix_expansion c9L "p:s" "file:///b" "http://x/"
    (by decide) (by decide) (by decide) (by decide) (by decide)).trans (by decide)

/-- C5: expand_url returns the reserved tokens unmodified for every base
and flag combination, and returns expression-language strings beginning
with a dollar-parenthesis or dollar-brace unchanged whenever the
vocabulary does not capture their colon prefix nor the reverse vocabulary
the string itself. -/
theorem c5_reserved_passthrough :
    (∀ (L : Loader) (base : String) (si vt : Bool) (sr : Option Node),
        expand_url L "@id" base si vt sr = "@id"
        ∧ expand_url L "@type" base si vt sr = "@type")
    ∧ (∀ (L : Loader) (url base : String) (si vt : Bool) (sr : Option Node),
        (listStartsWith ['$', '('] url.data = true
          ∨ listStartsWith ['$', '\x7b'] url.data = true) →
        sGet L.vocab (colonPfx url) = none →
        sGet L.rvocab url = none →
        expand_url L url base si vt sr = url) := by
  constructor
  · intro L base si vt sr
    constructor <;> simp [expand_url]
  · intro L url base si vt sr h h2 h3
    have hu1 : url ≠ "@id" := by
      intro he
      subst he
      rcases h with h | h <;> simp [listStartsWith] at h
    have hu2 : url ≠ "@type" := by
      intro he
      subst he
      rcases h with h | h <;> simp [listStartsWith] at h
    by_cases hv : (vt && sHas L.vocab url) = true
    · simp [expand_url, hu1, hu2, hv]
    · rcases h with h | h <;>
        simp [expand_url, hu1, hu2, hv, h, h2, h3]

/-- C5 witness: the passthrough applied to a concrete expression string
under the vocabulary-bearing loader. -/
theorem c5_reserved_passthrough_witness :
    expand_url c9L "$(inputs.x)" "file:///b" false true none = "$(inputs.x)"
    ∧ expand_url c9L "@id" "file:///b" true true (some (.num 2)) = "@id" :=
  ⟨c5_reserved_passthrough.2 c9L "$(inputs.x)" "file:///b" false true none
      (Or.inl (by decide)) (by decide) (by decide),
   (c5_reserved_passthrough.1 c9L "file:///b" true true (some (.num 2))).1⟩

/-- C6: the type-DSL rewrite.  A base name free of open brackets and
question marks passes through; an array suffix wraps it as an array type;
a question suffix wraps the result as a union with null; non-strings pass
through; and list-valued fields are flattened one level and deduplicated
first-seen-first, so File with both suffixes becomes null or array of
File, and the list int, int-question becomes int, null. -/
theorem c6_type_dsl :
    (∀ cs : List Char, cs ≠ [] →
        cs.all (fun c => c ≠ '[' && c ≠ '?') = true →
        (typeDsl (.str (String.mk cs)) = .str (String.mk cs)
        ∧ typeDsl (.str (String.mk (cs ++ ['[', ']'])))
            = .map [("type", .str "array"), ("items", .str (String.mk cs))]
        ∧ typeDsl (.str (String.mk (cs ++ ['?'])))
            = .arr [.str "null", .str (String.mk cs)]
        ∧ typeDsl (.str (String.mk (cs ++ ['[', ']', '?'])))
            = .arr [.str "null",
                .map [("type", .str "array"), ("items", .str (String.mk cs))]]))
    ∧ (∀ (xs : List Node) (kvs : List (String × Node)) (b : Bool) (i : Int),
        typeDsl (.arr xs) = .arr xs ∧ typeDsl (.map kvs) = .map kvs
        ∧ typeDsl (.bool b) = .bool b ∧ typeDsl (.num i) = .num i
        ∧ typeDsl .null = .null)
    ∧ resolveTypeDsl c6L [("type", .str "File[]?")]
        = [("type", .arr [.str "null",
            .map [("type", .str "array"), ("items", .str "File")]])]
    ∧ resolveTypeDsl c6L [("type", .arr [.str "int", .str "int?"])]
        = [("type", .arr [.str "int", .str "null"])] := by
  refine ⟨?_, ?_, by decide, by decide⟩
  · intro cs hne hall
    have hdata : ∀ l : List Char, (String.mk l).data = l := fun _ => rfl
    have hmem : ∀ x ∈ cs, ¬x = '[' ∧ ¬x = '?' := by
      intro x hx
      have := List.all_eq_true.mp hall x hx
      simpa using this
    have hrevne : cs.reverse ≠ [] := by simpa using hne
    have hallrev : cs.reverse.all (fun c => c ≠ '[' && c ≠ '?') = true := by
      simpa using hall
    refine ⟨?_, ?_, ?_, ?_⟩
    case refine_2 =>
      simp [typeDsl, hdata, hrevne, hallrev, hmem]
      exact hmem
    case refine_4 =>
      simp [typeDsl, hdata, hrevne, hmem]
      exact hmem
    all_goals {
      rcases hrev : cs.reverse with _ | ⟨c, rest⟩
      · simp at hrev; exact absurd hrev hne
      have hc : c ∈ cs := by
        have : c ∈ cs.reverse := by rw [hrev]; exact List.mem_cons_self c rest
        simpa using this
      have hcq : ¬c = '?' := (hmem c hc).2
      have hcb : ¬c = '[' := (hmem c hc).1
      rcases rest with _ | ⟨c2, rest2⟩
      · have hcs : cs = [c] := by
          rw [← List.reverse_reverse cs, hrev]
          simp
        simp [typeDsl, hdata, hrev, hcq, hcb, hcs]
      · have hc2 : c2 ∈ cs := by
          have : c2 ∈ cs.reverse := by rw [hrev]; simp
          simpa using this
        have hc2b : ¬c2 = '[' := (hmem c2 hc2).1
        have hc2q : ¬c2 = '?' := (hmem c2 hc2).2
        have hrest : ∀ x ∈ rest2, ¬x = '[' ∧ ¬x = '?' := by
          intro x hx
          refine hmem x ?_
          have : x ∈ cs.reverse := by rw [hrev]; simp [hx]
          simpa using this
        have hcs : cs = rest2.reverse ++ [c2, c] := by
          rw [← List.reverse_reverse cs, hrev]
          simp
        simp only [typeDsl, hdata, hrev, hcq, hcb, hc2b, hc2q, hcs]
        simp [hcq, hcb, hc2b, hc2q, hrest]
        all_goals exact hrest
    }
  · intro xs kvs b i
    exact ⟨rfl, rfl, rfl, rfl, rfl⟩

/-- C6 witness: the general rewrite instantiated at the base name File. -/
theorem c6_type_dsl_witness :
    typeDsl (.str "File[]") = .map [("type", .str "array"), ("items", .str "File")]
    ∧ typeDsl (.str "File") = .str "File" :=
  ⟨((c6_type_dsl.1 "File".data (by decide) (by decide)).2.1),
   ((c6_type_dsl.1 "File".data (by decide) (by decide)).1)⟩

theorem expand_url_L0_id (k : String) : expand_url L0 k "" false true none = k := by
  simp [expand_url, sGet, sHas, urljoinF, L0, compileCtx]

theorem normalizeFields_L0_id (m : List (String × Node)) : normalizeFields L0 m = m := by
  unfold normalizeFields
  generalize (m.map Prod.fst) = keys
  induction keys generalizing m with
  | nil => rfl
  | cons d rest ih =>
    simp [expand_url_L0_id, ih]

theorem getid_L0 (d : Node) : getid L0 d = none := by
  cases d <;> rfl

theorem ndepth_goL_mem : ∀ (xs : List Node) (x : Node), x ∈ xs → ndepth x ≤ ndepth.goL xs
  | y :: xs, x, h => by
    rcases List.mem_cons.mp h with h | h
    · subst h
      simp [ndepth.goL]
    · have := ndepth_goL_mem xs x h
      simp [ndepth.goL]
      omega

theorem ndepth_goM_mem : ∀ (kvs : List (String × Node)) (kv : String × Node),
    kv ∈ kvs → ndepth kv.2 ≤ ndepth.goM kvs
  | (k, v) :: kvs, kv, h => by
    rcases List.mem_cons.mp h with h | h
    · subst h
      simp [ndepth.goM]
    · have := ndepth_goM_mem kvs kv h
      simp [ndepth.goM]
      omega

theorem clean_goL_mem : ∀ (xs : List Node) (x : Node), cleanNode.goL xs = true →
    x ∈ xs → cleanNode x = true
  | y :: xs, x, hcl, h => by
    simp only [cleanNode.goL, Bool.and_eq_true] at hcl
    rcases List.mem_cons.mp h with h | h
    · subst h
      exact hcl.1
    · exact clean_goL_mem xs x hcl.2 h

theorem clean_goM_mem : ∀ (kvs : List (String × Node)) (kv : String × Node),
    cleanNode.goM kvs = true → kv ∈ kvs → cleanNode kv.2 = true
  | (k, v) :: kvs, kv, hcl, h => by
    simp only [cleanNode.goM, Bool.and_eq_true] at hcl
    rcases List.mem_cons.mp h with h | h
    · subst h
      exact hcl.1.2
    · exact clean_goM_mem kvs kv hcl.2 h

theorem clean_goM_not_has : ∀ (kvs : List (String × Node)) (r : String),
    cleanNode.goM kvs = true → reservedKeys.contains r = true → dHas kvs r = false
  | [], r, _, _ => rfl
  | (k, v) :: kvs, r, hcl, hr => by
    simp only [cleanNode.goM, Bool.and_eq_true] at hcl
    have hkmem : ¬(k ∈ reservedKeys) := by simpa using hcl.1.1
    have hrmem : r ∈ reservedKeys := by simpa using hr
    have hne : k ≠ r := by
      intro he
      subst he
      exact hkmem hrmem
    have ihr := clean_goM_not_has kvs r hcl.2 hr
    simp only [dHas, dGet, hne, if_neg] at ihr ⊢
    simpa [dHas, dGet] using ihr

theorem clean_not_dir (x : Node) (h : cleanNode x = true) :
    isDirElem x = false := by
  cases x <;> simp [isDirElem]
  case map kvs =>
    simp only [cleanNode] at h
    constructor
    · exact clean_goM_not_has kvs "$import" h (by decide)
    · exact clean_goM_not_has kvs "$mixin" h (by decide)

theorem mapFieldsM_id (f : String → Node → LState → Except Err (Node × LState)) :
    ∀ (m : List (String × Node)) (s : LState),
      (∀ kv ∈ m, ∀ st, f kv.1 kv.2 st = .ok (kv.2, st)) →
      mapFieldsM f m s = .ok (m, s)
  | [], s, _ => rfl
  | (k, v) :: m, s, h => by
    have h1 := h (k, v) (by simp)
    have h2 := mapFieldsM_id f m s (fun kv hkv st => h kv (by simp [hkv]) st)
    simp [mapFieldsM, h1, h2]

theorem spliceFoldM_id (fDir fEl : Node → LState → Except Err (Node × LState)) :
    ∀ (xs : List Node) (s : LState),
      (∀ x ∈ xs, isDirElem x = false ∧ ∀ st, fEl x st = .ok (x, st)) →
      spliceFoldM fDir fEl xs s = .ok (xs, s)
  | [], s, _ => rfl
  | x :: xs, s, h => by
    have h1 := h x (by simp)
    have h2 := spliceFoldM_id fDir fEl xs s (fun y hy => h y (by simp [hy]))
    simp [spliceFoldM, h1.1, h1.2, h2]

theorem vChildrenMap_id (f : Node → LState → Except Err (Node × LState))
    (gid : Node → Option String) (nolink : List String) :
    ∀ (m : List (String × Node)) (s : LState),
      (∀ kv ∈ m, ∀ st, f kv.2 st = .ok (kv.2, st)) →
      vChildrenMap f gid nolink m s = .ok (m, s, [])
  | [], s, _ => rfl
  | (k, v) :: m, s, h => by
    have h1 := h (k, v) (by simp)
    have h2 := vChildrenMap_id f gid nolink m s (fun kv hkv st => h kv (by simp [hkv]) st)
    simp [vChildrenMap, h1, h2]

theorem vChildrenList_id (f : Node → LState → Except Err (Node × LState))
    (gid : Node → Option String) :
    ∀ (xs : List Node) (s : LState),
      (∀ x ∈ xs, ∀ st, f x st = .ok (x, st)) →
      vChildrenList f gid xs s = .ok (xs, s, [])
  | [], s, _ => rfl
  | x :: xs, s, h => by
    have h1 := h x (by simp)
    have h2 := vChildrenList_id f gid xs s (fun y hy st => h y (by simp [hy]) st)
    simp [vChildrenList, h1, h2]

theorem vlinks_id : ∀ (k : Nat) (env : Env) (doc : Node) (base : String) (s : LState),
    ndepth doc + 1 ≤ k →
    rrStep k L0 env (.vlinks doc base) s = .ok ((doc, .map []), s) := by
  intro k
  induction k using Nat.strong_induction_on with
  | _ k ih =>
    intro env doc base s hd
    rcases k with _ | j
    · omega
    · have hu : L0.urlFields = [] := rfl
      cases doc with
      | map m =>
        have hch : ∀ kv ∈ m, ∀ st : LState,
            (match rrStep j L0 env (.vlinks kv.2 ((getid L0 (Node.map m)).getD base)) st with
              | .ok ((r, _), st2) => Except.ok (r, st2)
              | .error e => Except.error (α := Node × LState) e) = .ok (kv.2, st) := by
          intro kv hkv st
          have hdep : ndepth kv.2 + 1 ≤ j := by
            have h1 := ndepth_goM_mem m kv hkv
            simp [ndepth] at hd
            omega
          rw [ih j (by omega) env kv.2 _ st hdep]
        have hcm := vChildrenMap_id
          (fun v st =>
            match rrStep j L0 env (.vlinks v ((getid L0 (Node.map m)).getD base)) st with
            | .ok ((r, _), st2) => Except.ok (r, st2)
            | .error e => Except.error e)
          (getid L0) L0.nolinkcheck m s (fun kv hkv st => hch kv hkv st)
        simp only [rrStep, hu, vFields, bind, Except.bind, pure, Except.pure]
        rw [hcm]
        rfl
      | arr xs =>
        have hch : ∀ x ∈ xs, ∀ st : LState,
            (match rrStep j L0 env (.vlinks x ((getid L0 (Node.arr xs)).getD base)) st with
              | .ok ((r, _), st2) => Except.ok (r, st2)
              | .error e => Except.error (α := Node × LState) e) = .ok (x, st) := by
          intro x hx st
          have hdep : ndepth x + 1 ≤ j := by
            have h1 := ndepth_goL_mem xs x hx
            simp [ndepth] at hd
            omega
          rw [ih j (by omega) env x _ st hdep]
        have hcl := vChildrenList_id
          (fun v st =>
            match rrStep j L0 env (.vlinks v ((getid L0 (Node.arr xs)).getD base)) st with
            | .ok ((r, _), st2) => Except.ok (r, st2)
            | .error e => Except.error e)
          (getid L0) xs s (fun x hx st => hch x hx st)
        simp only [rrStep, bind, Except.bind, pure, Except.pure]
        rw [hcl]
      | null => rfl
      | bool b => rfl
      | num n => rfl
      | str st => rfl

theorem rall_id : ∀ (k : Nat) (env : Env) (doc : Node) (base : String)
    (fb : Option String) (chk : Bool) (s : LState),
    cleanNode doc = true → ndepth doc + 2 ≤ k →
    rrStep k L0 env (.rall doc base fb chk) s = .ok ((doc, .map []), s) := by
  intro k
  induction k using Nat.strong_induction_on with
  | _ k ih =>
    intro env doc base fb chk s hcl hd
    rcases k with _ | j
    · omega
    · cases doc with
      | null => rfl
      | bool b => rfl
      | num n => rfl
      | str st => rfl
      | map m =>
        have hgm : cleanNode.goM m = true := by simpa [cleanNode] using hcl
        have h1 := clean_goM_not_has m "$import" hgm (by decide)
        have h2 := clean_goM_not_has m "$include" hgm (by decide)
        have h3 := clean_goM_not_has m "$mixin" hgm (by decide)
        have h4 := clean_goM_not_has m "$base" hgm (by decide)
        have h5 := clean_goM_not_has m "$profile" hgm (by decide)
        have h6 := clean_goM_not_has m "$namespaces" hgm (by decide)
        have h7 := clean_goM_not_has m "$schemas" hgm (by decide)
        have h8 := clean_goM_not_has m "$graph" hgm (by decide)
        have hnorm : normalizeFields L0 m = m := normalizeFields_L0_id m
        have hidm : ∀ mm : List (String × Node), resolveIdmap L0 mm = Except.ok mm :=
          fun _ => rfl
        have hdsl : ∀ mm : List (String × Node), resolveTypeDsl L0 mm = mm :=
          fun _ => rfl
        have hidf : ∀ (mm : List (String × Node)) (b : String) (st : LState),
            resolveIdentifier L0 mm b st = .ok (mm, b, st) := fun _ _ _ => rfl
        have hidy : ∀ (mm : List (String × Node)) (b : String) (st : LState),
            resolveIdentity L0 mm b st = (mm, st) := fun _ _ _ => rfl
        have hur : ∀ (mm : List (String × Node)) (b : String),
            resolveUris L0 L0 mm b = mm := fun _ _ => rfl
        have hch : ∀ kv ∈ m, ∀ st : LState,
            ((match rrStep j L0 env (.rall kv.2 base (some (fb.getD base)) false) st with
              | .ok ((r, _), st2) => Except.ok (r, st2)
              | .error (.validationErr msg) => Except.error (.validationErr
                  ("(" ++ fb.getD base ++ ") Validation error in field " ++ kv.1 ++ ": " ++ msg))
              | .error e => Except.error e) : Except Err (Node × LState)) = .ok (kv.2, st) := by
          intro kv hkv st
          have hdep : ndepth kv.2 + 2 ≤ j := by
            have := ndepth_goM_mem m kv hkv
            simp [ndepth] at hd
            omega
          rw [ih j (by omega) env kv.2 base (some (fb.getD base)) false st
            (clean_goM_mem m kv hgm hkv) hdep]
        have hmf := mapFieldsM_id
          (fun kk v st =>
            match rrStep j L0 env (.rall v base (some (fb.getD base)) false) st with
            | .ok ((r, _), st2) => Except.ok (r, st2)
            | .error (.validationErr msg) => Except.error (.validationErr
                ("(" ++ fb.getD base ++ ") Validation error in field " ++ kk ++ ": " ++ msg))
            | .error e => Except.error e)
          m s (fun kv hkv st => hch kv hkv st)
        have hvl : rrStep j L0 env (.vlinks (Node.map m) "") s
            = .ok ((Node.map m, .map []), s) := by
          refine vlinks_id j env (Node.map m) "" s ?_
          omega
        simp only [rrStep, resolveBody, h1, h2, h3, h4, h5, h6, h7, h8, hnorm,
          hidm, hdsl, hidf, hidy, hur, Option.getD_none,
          Bool.or_false, Bool.false_or, if_false, Bool.false_eq_true,
          bind, Except.bind, pure, Except.pure]
        rw [hmf]
        cases chk with
        | false => rfl
        | true =>
          simp only [if_true]
          rw [hvl]
      | arr xs =>
        have hgl : cleanNode.goL xs = true := by simpa [cleanNode] using hcl
        have hch : ∀ x ∈ xs,
            isDirElem x = false
            ∧ ∀ st : LState,
              ((match rrStep j L0 env (.rall x base (some (fb.getD base)) false) st with
                | .ok ((r, _), st2) => Except.ok (r, st2)
                | .error (.validationErr msg) => Except.error (.validationErr
                    ("(" ++ fb.getD base ++ ") Validation error in position: " ++ msg))
                | .error e => Except.error e) : Except Err (Node × LState)) = .ok (x, st) := by
          intro x hx
          refine ⟨clean_not_dir x (clean_goL_mem xs x hgl hx), ?_⟩
          intro st
          have hdep : ndepth x + 2 ≤ j := by
            have := ndepth_goL_mem xs x hx
            simp [ndepth] at hd
            omega
          rw [ih j (by omega) env x base (some (fb.getD base)) false st
            (clean_goL_mem xs x hgl hx) hdep]
        have hsf := spliceFoldM_id
          (fun v st =>
            match rrStep j L0 env (.rref v (some (fb.getD base)) false) st with
            | .ok ((r, _), st2) => Except.ok (r, st2)
            | .error (.validationErr msg) => Except.error (.validationErr
                ("(" ++ fb.getD base ++ ") Validation error in position: " ++ msg))
            | .error e => Except.error e)
          (fun v st =>
            match rrStep j L0 env (.rall v base (some (fb.getD base)) false) st with
            | .ok ((r, _), st2) => Except.ok (r, st2)
            | .error (.validationErr msg) => Except.error (.validationErr
                ("(" ++ fb.getD base ++ ") Validation error in position: " ++ msg))
            | .error e => Except.error e)
          xs s hch
        have hvl : rrStep j L0 env (.vlinks (Node.arr xs) "") s
            = .ok ((Node.arr xs, .map []), s) := by
          refine vlinks_id j env (Node.arr xs) "" s ?_
          omega
        have hil : L0.identityLinks = [] := rfl
        simp only [rrStep, resolveBody, bind, Except.bind, pure, Except.pure,
          hil, List.foldl_nil]
        rw [hsf]
        cases chk with
        | false => rfl
        | true =>
          simp only [if_true]
          rw [hvl]

/-- C2 (amended): resolution is not idempotent in general (an idmap field
whose value is an import directive is desugared only on the second run);
it is idempotent for documents carrying no reserved directive key under a
loader with an empty compiled context, where resolve_all is the identity
on the document and the state. -/
theorem c2_idempotence_amended :
    ∀ (k : Nat) (env : Env) (doc : Node) (base : String) (s : LState),
      cleanNode doc = true → ndepth doc + 2 ≤ k →
      (resolve_all k L0 env doc base none true s).bind
          (fun p => resolve_all k L0 env p.1.1 base none true p.2)
        = resolve_all k L0 env doc base none true s := by
  intro k env doc base s h1 h2
  unfold resolve_all
  rw [rall_id k env doc base none true s h1 h2]
  simp [Except.bind]
  exact rall_id k env doc base none true s h1 h2

/-- C2 witness: idempotence of the clean two-level document steps, run
echo under the empty context. -/
theorem c2_idempotence_amended_witness :
    cleanNode (.map [("steps", .arr [.map [("run", .str "echo")]])]) = true
    ∧ ndepth (.map [("steps", .arr [.map [("run", .str "echo")]])]) + 2 ≤ 9
    ∧ (resolve_all 9 L0 envNone (.map [("steps", .arr [.map [("run", .str "echo")]])])
          "file:///w" none true state0).bind
        (fun p => resolve_all 9 L0 envNone p.1.1 "file:///w" none true p.2)
      = resolve_all 9 L0 envNone (.map [("steps", .arr [.map [("run", .str "echo")]])])
          "file:///w" none true state0 :=
  ⟨by decide, by decide,
   c2_idempotence_amended 9 envNone _ "file:///w" state0 (by decide) (by decide)⟩

/-- C3 (amended): the index entry under an expanded identifier is the
first node that claimed it: _resolve_identifier installs the node when the
slot is empty or holds a string placeholder, and leaves an existing
mapping entry untouched, so later duplicate claimants do not replace it;
in the duplicate-identifier scenario the index maps the shared identifier
to the first resolved node. -/
theorem c3_index_invariant_amended :
    (∀ (L : Loader) (doc : List (String × Node)) (base : String) (s : LState)
        (ident v : String),
        L.identifiers = [ident] →
        dGet doc ident = some (.str v) →
        (idxGet s (expand_url L v base true) = none
          ∨ ∃ pl, idxGet s (expand_url L v base true) = some (.str pl)) →
        resolveIdentifier L doc base s
          = .ok (dSet doc ident (.str (expand_url L v base true)),
              expand_url L v base true,
              idxSet s (expand_url L v base true)
                (.map (dSet doc ident (.str (expand_url L v base true))))))
    ∧ (∀ (L : Loader) (doc : List (String × Node)) (base : String) (s : LState)
        (ident v : String) (m0 : List (String × Node)),
        L.identifiers = [ident] →
        dGet doc ident = some (.str v) →
        idxGet s (expand_url L v base true) = some (.map m0) →
        resolveIdentifier L doc base s
          = .ok (dSet doc ident (.str (expand_url L v base true)),
              expand_url L v base true, s))
    ∧ resolve_all 10 c3L envNone c3doc "file:///w" none true state0
        = .ok ((.arr [c3node1, c3node2], .map []),
            { idx := [("file:///w#s", c3node1)], cache := [] })
    ∧ getid c3L c3node1 = some "file:///w#s" := by
  refine ⟨?_, ?_, by decide, by decide⟩
  · intro L doc base s ident v hids hget hfree
    simp only [resolveIdentifier, hids, List.foldlM, hget]
    rcases hfree with hfree | ⟨pl, hfree⟩ <;>
      simp [hfree, bind, Except.bind, pure, Except.pure]
  · intro L doc base s ident v m0 hids hget hocc
    simp only [resolveIdentifier, hids, List.foldlM, hget]
    simp [hocc, bind, Except.bind, pure, Except.pure]

/-- C3 witness: the free-slot insertion applied to a concrete node. -/
theorem c3_index_invariant_amended_witness :
    resolveIdentifier c3L [("id", .str "s")] "file:///w" state0
      = .ok ([("id", .str "file:///w#s")], "file:///w#s",
          { idx := [("file:///w#s", .map [("id", .str "file:///w#s")])], cache := [] }) :=
  (c3_index_invariant_amended.1 c3L [("id", .str "s")] "file:///w" state0 "id" "s"
    (by decide) (by decide) (Or.inl (by decide))).trans (by decide)
